import Mathlib

/-!
Verification development for the session registry and admin command
protocol of remote-admin.js (ingics/igs-remote-admin).

The JavaScript source is shallowly embedded: strings are Lean `String`s,
timestamps are milliseconds as `Nat`, socket effects are reified as an
`Output` list, and the case-insensitive JS regexes of CONFIG.COMMANDS and
of the device data handler are modelled by deterministic character-list
parsers.  Each parser is deterministic because in every pattern the
optional/greedy constructs (`[:]?`, `[:-]?`, `\s+`, class runs, `(.+)`)
are immediately followed by a requirement that the skipped alternative
character can never satisfy, so regex backtracking never changes the
outcome; admin lines come from readline and contain no newline.
-/

namespace RemoteAdmin

/-- Character class [0-9A-Fa-f] of the source regexes. -/
def isHexDig (c : Char) : Bool :=
  (48 ≤ c.toNat && c.toNat ≤ 57) || (65 ≤ c.toNat && c.toNat ≤ 70) ||
    (97 ≤ c.toNat && c.toNat ≤ 102)

/-- Character class [A-Fa-f] used by parseId's hex auto-detection. -/
def isHexLetterChar (c : Char) : Bool :=
  (65 ≤ c.toNat && c.toNat ≤ 70) || (97 ≤ c.toNat && c.toNat ≤ 102)

/-- JS `\s` / String.prototype.trim whitespace, restricted to ASCII
(space, tab, LF, VT, FF, CR); device and admin traffic is ASCII text. -/
def isWsChar (c : Char) : Bool :=
  c.toNat = 32 || (9 ≤ c.toNat && c.toNat ≤ 13)

/-- Numeric value of a digit character in bases up to 36 (JS parseInt). -/
def digitVal (c : Char) : Nat :=
  if 48 ≤ c.toNat ∧ c.toNat ≤ 57 then c.toNat - 48
  else if 65 ≤ c.toNat ∧ c.toNat ≤ 90 then c.toNat - 55
  else if 97 ≤ c.toNat ∧ c.toNat ≤ 122 then c.toNat - 87
  else 1000

/-- Is `c` a valid digit for JS parseInt in base `radix`. -/
def isDigitIn (radix : Nat) (c : Char) : Bool :=
  ((48 ≤ c.toNat && c.toNat ≤ 57) || (65 ≤ c.toNat && c.toNat ≤ 90) ||
    (97 ≤ c.toNat && c.toNat ≤ 122)) && digitVal c < radix

/-- Does the character list `hay` start with `needle`. -/
def startsWithList : List Char → List Char → Bool
  | [], _ => true
  | _ :: _, [] => false
  | a :: as, b :: bs => a = b && startsWithList as bs

/-- Does `hay` contain `sub` as a contiguous run (JS indexOf(sub) >= 0). -/
def containsList (sub : List Char) : List Char → Bool
  | [] => startsWithList sub []
  | c :: rest => startsWithList sub (c :: rest) || containsList sub rest

/-- JS `out.indexOf(opt) >= 0`: substring containment. -/
def strContains (hay sub : String) : Bool :=
  containsList sub.data hay.data

/-- JS String.prototype.trim (ASCII whitespace at both ends). -/
def jsTrim (s : String) : String :=
  String.mk (((s.data.dropWhile isWsChar).reverse.dropWhile isWsChar).reverse)

/-- JS String.prototype.split(sep) for a single-character separator. -/
def splitOnChar (sep : Char) : List Char → List String
  | [] => [""]
  | c :: rest =>
    match splitOnChar sep rest with
    | [] => [""]
    | t :: ts => if c = sep then "" :: t :: ts else String.mk (c :: t.data) :: ts

/-- JS `.split(",")` as used on the captured target lists. -/
def splitCommas (cs : List Char) : List String := splitOnChar ',' cs

/-- Drop the maximal run matched by a greedy `\s*` / `\s+`. -/
def dropWs (cs : List Char) : List Char := cs.dropWhile isWsChar

/-- Two hex digits, as in the byte groups of the MAC regexes. -/
def hex2At : List Char → Option (List Char × List Char)
  | c1 :: c2 :: r => if isHexDig c1 && isHexDig c2 then some ([c1, c2], r) else none
  | _ => none

/-- `(?:[0-9A-Fa-f]{2}SEP?){n}` for a separator class `isSep`.  Returns the
matched characters and the remainder.  Declining a present separator would
put the separator character under the next hex-digit requirement, so the
greedy parse is the only one that can succeed. -/
def macRepsAt (isSep : Char → Bool) : Nat → List Char → Option (List Char × List Char)
  | 0, cs => some ([], cs)
  | n + 1, cs =>
    match hex2At cs with
    | none => none
    | some (p, r) =>
      match r with
      | c :: r2 =>
        if isSep c then
          match macRepsAt isSep n r2 with
          | some (m, rr) => some (p ++ c :: m, rr)
          | none => none
        else
          match macRepsAt isSep n (c :: r2) with
          | some (m, rr) => some (p ++ m, rr)
          | none => none
      | [] =>
        match macRepsAt isSep n [] with
        | some (m, rr) => some (p ++ m, rr)
        | none => none

/-- Separator class `[:]` of the device-side MAC pattern. -/
def deviceSep (c : Char) : Bool := c = ':'

/-- Separator class `[:-]` of the admin CMD_MAC pattern. -/
def adminSep (c : Char) : Bool := c = ':' || c = '-'

/-- One MAC-address group: `(?:hh SEP?){5} hh` — six hex byte groups. -/
def macAt (isSep : Char → Bool) (cs : List Char) : Option (List Char × List Char) :=
  match macRepsAt isSep 5 cs with
  | none => none
  | some (m, r) =>
    match hex2At r with
    | none => none
    | some (p, rr) => some (m ++ p, rr)

/-- Leftmost unanchored search for the device MAC pattern
`([0-9A-Fa-f]{2}[:]?){5}([0-9A-Fa-f]{2})` — the regex engine tries each
start position left to right; `match[0]` is the matched substring. -/
def macSearchAux : List Char → Option (List Char)
  | [] => none
  | c :: rest =>
    match macAt deviceSep (c :: rest) with
    | some (m, _) => some m
    | none => macSearchAux rest

/-- `line.match(patterns.mac)` returning the full match. -/
def macSearch (line : String) : Option String :=
  (macSearchAux line.data).map String.mk

/-- Unanchored `LIT(.+)` telemetry pattern: first occurrence of `LIT`
followed by at least one non-newline character; the greedy `(.+)` capture
runs to the newline or end.  An occurrence followed immediately by a
newline cannot match, and the engine moves on to later occurrences. -/
def searchCapture (lit : List Char) : List Char → Option String
  | [] => none
  | c :: rest =>
    if startsWithList lit (c :: rest) then
      let cap := ((c :: rest).drop lit.length).takeWhile (fun x => x ≠ '\n')
      if cap = [] then searchCapture lit rest else some (String.mk cap)
    else searchCapture lit rest

/-- Anchored `^LIT(.+)` pattern (the TRACE telemetry pattern). -/
def anchoredCapture (lit : List Char) (cs : List Char) : Option String :=
  if startsWithList lit cs then
    let cap := (cs.drop lit.length).takeWhile (fun x => x ≠ '\n')
    if cap = [] then none else some (String.mk cap)
  else none

/-! Data model: sessions, reified socket effects, global state. -/

/-- One entry of `state.sessions`.  Fields track the session object built
in handleRemoteConnection.  The source initializes `trace`, `fwVer`,
`bleMac`, `wlanFwVer` (and `token`, `mac`) to the sentinel string "NA" but
never initializes a `wifiMac` property, so `wifiMac` is `none` (absent /
undefined) until a WIFI_MAC telemetry line first assigns it.  `writable`
models `socket.writable`. -/
structure Session where
  id : Nat
  status : String
  token : String
  mac : String
  trace : String
  fwVer : String
  addr : String
  start : Nat
  bleMac : String
  wlanFwVer : String
  wifiMac : Option String
  writable : Bool
deriving DecidableEq

/-- Reified socket effects: admin broadcasts (logToAdmins messages,
before the uniform timestamp prefix is prepended), writes to a device
socket, `socket.end(...); socket.destroy()` force-closes, and
clearTimeout of the login validation timer. -/
inductive Output where
  | broadcast (msg : String)
  | deviceWrite (sid : Nat) (msg : String)
  | deviceClose (sid : Nat)
  | clearValidationTimer (sid : Nat)
deriving DecidableEq

/-- The session literal created on accept in handleRemoteConnection. -/
def mkSession (sid : Nat) (addr : String) (now : Nat) : Session :=
  { id := sid, status := "connect", token := "NA", mac := "NA", trace := "NA",
    fwVer := "NA", addr := addr, start := now, bleMac := "NA",
    wlanFwVer := "NA", wifiMac := none, writable := true }

/-- Global `state`: the Map of sessions in insertion order plus the
session ID counter (`sessionIdCounter`, initially 1000). -/
structure ServerState where
  sessions : List Session
  counter : Nat
deriving DecidableEq

def initialState : ServerState := { sessions := [], counter := 1000 }

/-- `state.sessions.get(id)` (Map lookup by exact ID). -/
def findSessionById (st : ServerState) (id : Nat) : Option Session :=
  st.sessions.find? (fun s => s.id = id)

/-- findSessionByMac: first session (insertion order) with `mac === mac`. -/
def findSessionByMac (st : ServerState) (mac : String) : Option Session :=
  st.sessions.find? (fun s => s.mac = mac)

/-! parseId: decimal/hexadecimal auto-detection. -/

/-- JS `parseInt(s, radix)` restricted to the inputs that reach it here
(captures of `[0-9A-Fa-f,]` classes, so no sign and no leading
whitespace; the optional "0x"/"0X" prefix accepted in base 16 is kept):
parse the maximal prefix of valid digits, NaN (`none`) if it is empty. -/
def parseIntJs (radix : Nat) (s : String) : Option Nat :=
  let cs := if radix = 16 &&
      (startsWithList ['0', 'x'] s.data || startsWithList ['0', 'X'] s.data) then
    s.data.drop 2 else s.data
  let ds := cs.takeWhile (isDigitIn radix)
  if ds = [] then none else some (ds.foldl (fun a c => a * radix + digitVal c) 0)

/-- parseId: hex base if the string starts with "0x" or contains a hex
letter A-F/a-f, else decimal. -/
def parseId (s : String) : Option Nat :=
  let isHex := startsWithList ['0', 'x'] s.data || s.data.any isHexLetterChar
  parseIntJs (if isHex then 16 else 10) s

/-! Device data handler (socket.on("data") in handleRemoteConnection). -/

/-- Matched substring with the colons removed (`match[0].replace(/:/g,"")`). -/
def stripColons (m : String) : String :=
  String.mk (m.data.filter (fun c => c ≠ ':'))

/-- The audit echo line broadcast for every nonempty device message. -/
def msgLineEcho (s : Session) (line : String) : String :=
  "[MGS LINE][" ++ toString s.id ++ "][" ++ s.token ++ "] " ++ line

/-- FIRMWARE_VERSION=(.+) check (Object.entries loop, key firmwareVersion). -/
def applyFw (s : Session) (line : String) : Session :=
  match searchCapture "FIRMWARE_VERSION=".data line.data with
  | some v => { s with fwVer := v }
  | none => s

/-- BLE_MAC=(.+) check (key bleMac). -/
def applyBle (s : Session) (line : String) : Session :=
  match searchCapture "BLE_MAC=".data line.data with
  | some v => { s with bleMac := v }
  | none => s

/-- WIFI_MAC=(.+) check (key wifiMac; assigning creates the property). -/
def applyWifi (s : Session) (line : String) : Session :=
  match searchCapture "WIFI_MAC=".data line.data with
  | some v => { s with wifiMac := some v }
  | none => s

/-- WLAN_VERSION=(.+) check (key wlanFwVer). -/
def applyWlan (s : Session) (line : String) : Session :=
  match searchCapture "WLAN_VERSION=".data line.data with
  | some v => { s with wlanFwVer := v }
  | none => s

/-- ^TRACE=(.+) check (key trace). -/
def applyTrace (s : Session) (line : String) : Session :=
  match anchoredCapture "TRACE=".data line.data with
  | some v => { s with trace := v }
  | none => s

/-- The `for (const [key, pattern] of Object.entries(patterns))` loop in
its fixed insertion order, with the mac key skipped. -/
def applyTelemetry (s : Session) (line : String) : Session :=
  applyTrace (applyWlan (applyWifi (applyBle (applyFw s line) line) line) line) line

/-- Processing of one nonempty trimmed device message: echo broadcast,
then the first-MAC identification branch, then the telemetry loop. -/
def processLine (s : Session) (line : String) : Session × List Output :=
  let echo := Output.broadcast (msgLineEcho s line)
  match macSearch line with
  | some m =>
    if s.mac = "NA" then
      let s' := { s with mac := m, token := stripColons m }
      (applyTelemetry s' line,
        [echo, Output.broadcast ("[MAC] " ++ m ++ " " ++ s.addr),
          Output.deviceWrite s.id "SYS \n", Output.deviceWrite s.id "SYS DBG \n",
          Output.clearValidationTimer s.id])
    else (applyTelemetry s line, [echo])
  | none => (applyTelemetry s line, [echo])

/-- The socket.on("data") callback: the whole delivered chunk is trimmed
and treated as a single line; empty results are ignored. -/
def handleData (s : Session) (chunk : String) : Session × List Output :=
  let line := jsTrim chunk
  if line = "" then (s, []) else processLine s line

/-- Successive device messages on one connection, in arrival order. -/
def runLines (s : Session) : List String → Session
  | [] => s
  | l :: ls => runLines (processLine s l).1 ls

/-- The validation-timeout callback: only acts if mac is still "NA". -/
def timerEffects (s : Session) : List Output :=
  if s.mac = "NA" then
    [Output.broadcast ("[DEV NOT VALID] " ++ s.addr ++ " " ++ s.mac),
      Output.deviceWrite s.id "Not Valid\n", Output.deviceClose s.id]
  else []

/-! Admin command grammars (CONFIG.COMMANDS) and processAdminCommand. -/

/-- `\s+(.+)` at the end of the CMD/CMDALL patterns: a nonempty greedy
whitespace run, then a nonempty capture to the end of the line.  When the
remainder is all whitespace the greedy `\s+` backs off one character and
`.` (which matches whitespace) captures it; that case is unreachable for
readline-trimmed admin lines. -/
def tailPayload (cs : List Char) : Option (List Char) :=
  match cs with
  | [] => none
  | c :: _ =>
    if isWsChar c then
      let r := cs.dropWhile isWsChar
      if r ≠ [] then some r
      else if 2 ≤ cs.length then some (cs.drop (cs.length - 1))
      else none
    else none

/-- `^ls\s*(.*)$` (case-insensitive): capture is everything after the
greedy whitespace run following the two command letters. -/
def lsMatch (line : String) : Option String :=
  match line.data with
  | c1 :: c2 :: rest =>
    if (c1 = 'l' || c1 = 'L') && (c2 = 's' || c2 = 'S') then
      some (String.mk (dropWs rest))
    else none
  | _ => none

/-- `^cmd\s+` (case-insensitive) shared by CMD_MAC and CMD_ID: both
continue with a character (hex digit) that `\s` cannot match, so the
greedy whitespace run is exact.  Returns the remainder. -/
def cmdHeadAt (cs : List Char) : Option (List Char) :=
  match cs with
  | c1 :: c2 :: c3 :: rest =>
    if (c1 = 'c' || c1 = 'C') && (c2 = 'm' || c2 = 'M') && (c3 = 'd' || c3 = 'D') then
      match rest with
      | c :: _ => if isWsChar c then some (dropWs rest) else none
      | [] => none
    else none
  | _ => none

/-- The `(?:(?:,)MAC)*` tail of the CMD_MAC target list.  A comma must be
followed by a full MAC element (stopping the star before a comma leaves
the comma under `\s+`, which fails), and the star stops at any other
character.  Fuel is the remaining length; each iteration consumes at
least 14 characters, so fuel never runs out when started at the length. -/
def macStarGo : Nat → List Char → Option (List String × List Char)
  | _, [] => some ([], [])
  | 0, _ :: _ => none
  | fuel + 1, c :: r2 =>
    if c = ',' then
      match macAt adminSep r2 with
      | some (m, rr) =>
        match macStarGo fuel rr with
        | some (ms, rf) => some (String.mk m :: ms, rf)
        | none => none
      | none => none
    else some ([], c :: r2)

/-- CMD_MAC:
`^cmd\s+((?:hh[:-]?){5}hh(?:,(?:hh[:-]?){5}hh)*)\s+(.+)$` (i-flag).
The source captures the joined target list and then does `.split(",")`;
this parser yields those comma-separated elements directly. -/
def cmdMacMatch (line : String) : Option (List String × String) :=
  match cmdHeadAt line.data with
  | none => none
  | some cs =>
    match macAt adminSep cs with
    | none => none
    | some (m, r) =>
      match macStarGo r.length r with
      | none => none
      | some (ms, r2) =>
        match tailPayload r2 with
        | none => none
        | some p => some (String.mk m :: ms, String.mk p)

/-- CMD_ID: `^cmd\s+([0-9A-Fa-f,]+)\s+(.+)` (i-flag).  The class run is
maximal (a shorter run would leave a class character, never whitespace,
under `\s+`).  Returns the raw capture; the caller splits on commas. -/
def cmdIdMatch (line : String) : Option (String × String) :=
  match cmdHeadAt line.data with
  | none => none
  | some cs =>
    let ts := cs.takeWhile (fun c => isHexDig c || c = ',')
    let r := cs.dropWhile (fun c => isHexDig c || c = ',')
    if ts = [] then none
    else
      match tailPayload r with
      | some p => some (String.mk ts, String.mk p)
      | none => none

/-- CMDALL: `^cmdall\s+(.+)$` (i-flag). -/
def cmdAllMatch (line : String) : Option String :=
  match line.data with
  | c1 :: c2 :: c3 :: c4 :: c5 :: c6 :: rest =>
    if (c1 = 'c' || c1 = 'C') && (c2 = 'm' || c2 = 'M') && (c3 = 'd' || c3 = 'D') &&
        (c4 = 'a' || c4 = 'A') && (c5 = 'l' || c5 = 'L') && (c6 = 'l' || c6 = 'L') then
      (tailPayload rest).map String.mk
    else none
  | _ => none

/-- DROP: `^drop\s+([0-9A-Fa-f]+)$` (i-flag): after the whitespace run the
rest of the line must be a nonempty run of hex digits. -/
def dropMatch (line : String) : Option String :=
  match line.data with
  | c1 :: c2 :: c3 :: c4 :: rest =>
    if (c1 = 'd' || c1 = 'D') && (c2 = 'r' || c2 = 'R') && (c3 = 'o' || c3 = 'O') &&
        (c4 = 'p' || c4 = 'P') then
      match rest with
      | c :: _ =>
        if isWsChar c then
          let r := dropWs rest
          if r ≠ [] && r.all isHexDig then some (String.mk r) else none
        else none
      | [] => none
    else none
  | _ => none

/-- Uptime display: moment duration days (floored) plus a UTC HH:mm:ss
clock of the elapsed milliseconds. -/
def pad2 (n : Nat) : String := if n < 10 then "0" ++ toString n else toString n

def formatUptime (elapsed : Nat) : String :=
  toString (elapsed / 86400000) ++ " days, " ++ pad2 (elapsed / 3600000 % 24) ++
    ":" ++ pad2 (elapsed / 60000 % 60) ++ ":" ++ pad2 (elapsed / 1000 % 60)

/-- The per-session `ls` output line. -/
def sessLine (now : Nat) (s : Session) : String :=
  "[SESS][" ++ toString s.id ++ "][" ++ s.token ++ "] " ++
    formatUptime (now - s.start) ++ " trace: " ++ s.trace ++ "\t" ++ s.fwVer ++
    "\t-- " ++ s.addr

/-- Body of the `macs.forEach` loop of the CMD-by-MAC branch. -/
def cmdMacElemEffects (st : ServerState) (cmd : String) (mac0 : String) : List Output :=
  let mac := jsTrim mac0
  match findSessionByMac st mac with
  | some s =>
    if s.writable then
      [Output.broadcast ("[CMD] " ++ cmd), Output.deviceWrite s.id (cmd ++ "\n")]
    else [Output.broadcast ("[CMD ERROR] Device MAC " ++ mac ++ " socket not writable.")]
  | none => [Output.broadcast ("[CMD ERROR] Device MAC " ++ mac ++ " not found.")]

/-- Body of the `ids.forEach` loop of the CMD-by-ID branch. -/
def cmdIdElemEffects (st : ServerState) (cmd : String) (idStr : String) : List Output :=
  match parseId idStr with
  | none => [Output.broadcast ("[CMD ERROR] Invalid ID format: " ++ idStr)]
  | some id =>
    match findSessionById st id with
    | some s =>
      if s.writable then
        [Output.broadcast ("[CMD] " ++ cmd), Output.deviceWrite s.id (cmd ++ "\n")]
      else [Output.broadcast ("[CMD ERROR] Device ID " ++ toString id ++ " socket not writable.")]
    | none => [Output.broadcast ("[CMD ERROR] Device ID " ++ toString id ++ " not found.")]

/-- The DROP branch body: unparseable or unknown IDs are silent. -/
def dropEffects (st : ServerState) (idStr : String) : List Output :=
  match parseId idStr with
  | none => []
  | some id =>
    match findSessionById st id with
    | some s =>
      [Output.broadcast ("[DROP] " ++ toString id),
        Output.deviceWrite s.id "Connection dropped by admin.\n",
        Output.deviceClose s.id]
    | none => []

/-- processAdminCommand: the five grammars tried in source order
(LS, CMD_MAC, CMD_ID, CMDALL, DROP), first match wins, no match is a
silent no-op.  `now` feeds the uptime display of `ls`. -/
def processAdminCommand (now : Nat) (st : ServerState) (line : String) : List Output :=
  match lsMatch line with
  | some opt =>
    st.sessions.flatMap (fun s =>
      let out := sessLine now s
      if opt = "" || strContains out opt then [Output.broadcast out] else [])
  | none =>
    match cmdMacMatch line with
    | some (macs, cmd) => macs.flatMap (cmdMacElemEffects st cmd)
    | none =>
      match cmdIdMatch line with
      | some (ts, cmd) => (splitCommas ts.data).flatMap (cmdIdElemEffects st cmd)
      | none =>
        match cmdAllMatch line with
        | some cmd =>
          st.sessions.flatMap (fun s =>
            if s.writable then
              [Output.broadcast ("[CMD] " ++ toString s.id ++ " " ++ s.addr ++ " " ++ cmd),
                Output.deviceWrite s.id (cmd ++ "\n")]
            else [])
        | none =>
          match dropMatch line with
          | some idStr => dropEffects st idStr
          | none => []

/-! Connection-lifecycle events and the global step function. -/

/-- External events: a device connection accepted, a data chunk delivered
on a device connection, the validation timer firing, a device connection
closing (any cause), and an admin line arriving. -/
inductive Ev where
  | connect (addr : String) (now : Nat)
  | deviceData (sid : Nat) (chunk : String)
  | validationTimer (sid : Nat)
  | closeConn (sid : Nat)
  | adminLine (now : Nat) (line : String)

/-- One event against the global state.  connect allocates
`++state.sessionIdCounter` and inserts; close broadcasts and deletes from
the Map; the validation timer of a closed session never fires (its
clearTimeout ran in the close handler). -/
def step (st : ServerState) (ev : Ev) : ServerState × List Output :=
  match ev with
  | .connect addr now =>
    let sid := st.counter + 1
    ({ sessions := st.sessions ++ [mkSession sid addr now], counter := sid },
      [Output.broadcast ("[CONN] ID:" ++ toString sid ++ " " ++ addr)])
  | .deviceData sid chunk =>
    match findSessionById st sid with
    | some s =>
      let r := handleData s chunk
      ({ st with sessions := st.sessions.map (fun t => if t.id = sid then r.1 else t) }, r.2)
    | none => (st, [])
  | .validationTimer sid =>
    match findSessionById st sid with
    | some s => (st, timerEffects s)
    | none => (st, [])
  | .closeConn sid =>
    match findSessionById st sid with
    | some s =>
      ({ st with sessions := st.sessions.filter (fun t => ¬ t.id = sid) },
        [Output.broadcast ("[CLOSE] ID:" ++ toString s.id ++ " " ++ s.mac ++ " " ++ s.addr)])
    | none => (st, [])
  | .adminLine now line => (st, processAdminCommand now st line)

/-- Final state after a list of events. -/
def run (st : ServerState) : List Ev → ServerState
  | [] => st
  | e :: es => run (step st e).1 es

/-- The session IDs handed out by connect events, in order. -/
def newIds (st : ServerState) : List Ev → List Nat
  | [] => []
  | e :: es =>
    match e with
    | .connect _ _ => (st.counter + 1) :: newIds (step st e).1 es
    | _ => newIds (step st e).1 es

/-- Number of connect events. -/
def countConnects : List Ev → Nat
  | [] => 0
  | Ev.connect _ _ :: es => countConnects es + 1
  | _ :: es => countConnects es

/-! Observers used by the theorem statements. -/

/-- The messages written to the device socket, in order. -/
def deviceWrites (outs : List Output) : List String :=
  outs.filterMap (fun o =>
    match o with
    | Output.deviceWrite _ m => some m
    | _ => none)

/-- The identification broadcasts (messages tagged "[MAC]"). -/
def macBroadcasts (outs : List Output) : List Output :=
  outs.filter (fun o =>
    match o with
    | Output.broadcast msg => startsWithList "[MAC]".data msg.data
    | _ => false)

/-- Whether the validation timer gets cleared by these effects. -/
def clearsTimer (outs : List Output) : Bool :=
  outs.any (fun o =>
    match o with
    | Output.clearValidationTimer _ => true
    | _ => false)

/-- Whether an output is the per-message audit echo ("[MGS LINE]..."). -/
def isEchoOut (o : Output) : Bool :=
  match o with
  | Output.broadcast msg => startsWithList "[MGS LINE]".data msg.data
  | _ => false

/-- How many audit echoes (processed messages) these effects contain. -/
def countEcho (outs : List Output) : Nat := (outs.filter isEchoOut).length

/-- Spec-side line splitting, for comparison with the code's chunk
handling.  It follows the spec's words: the inbound byte stream is split
into newline-terminated lines and each (trimmed, nonempty) line is
processed separately, in order. -/
def specSplitLines (chunk : String) : List String :=
  ((splitOnChar '\n' chunk.data).map jsTrim).filter (fun l => l ≠ "")

/-- A string that the CMD_MAC grammar accepts as one complete target
element (one MAC address, colon/dash separated or bare). -/
abbrev MacOK (t : String) : Prop := macAt adminSep t.data = some (t.data, [])

/-- The characters of a comma-preceded tail of a target list. -/
def joinCommasTail : List String → List Char
  | [] => []
  | t :: ts => ',' :: (t.data ++ joinCommasTail ts)

/-- Comma-join of a target list (inverse of the `.split(",")`). -/
def joinCommas : List String → String
  | [] => ""
  | t :: ts => String.mk (t.data ++ joinCommasTail ts)

/-- Base-`radix` value of a digit run (most significant first). -/
def digitsVal (radix : Nat) (cs : List Char) : Nat :=
  cs.foldl (fun a c => a * radix + digitVal c) 0

/-! Helper lemmas and the claim theorems. -/

lemma strData_append (a b : String) : (a ++ b).data = a.data ++ b.data := by
  cases a; cases b; rfl

lemma strMk_data (s : String) : String.mk s.data = s := by cases s; rfl

lemma isHexDig_not_ws {c : Char} (h : isHexDig c = true) : isWsChar c = false := by
  simp [isHexDig] at h
  simp [isWsChar]
  omega

lemma isHexDig_digitIn16 {c : Char} (h : isHexDig c = true) : isDigitIn 16 c = true := by
  simp [isHexDig] at h
  simp [isDigitIn, digitVal]
  split_ifs <;> omega

lemma isHexDig_no_letter_digitIn10 {c : Char} (h : isHexDig c = true)
    (h2 : isHexLetterChar c = false) : isDigitIn 10 c = true := by
  simp [isHexDig] at h
  simp [isHexLetterChar] at h2
  simp [isDigitIn, digitVal]
  split_ifs <;> omega

lemma isHexDig_ne_x {c : Char} (h : isHexDig c = true) : c ≠ 'x' := by
  rintro rfl
  simp [isHexDig] at h

lemma startsWith_MGS (rest : List Char) :
    startsWithList "[MGS LINE]".data ('[' :: 'M' :: 'G' :: 'S' :: ' ' :: 'L' :: 'I' :: 'N' :: 'E' :: ']' :: rest) = true := by
  simp [startsWithList]

lemma startsWith_MAC_on_MGS (rest : List Char) :
    startsWithList "[MAC]".data ('[' :: 'M' :: 'G' :: 'S' :: rest) = false := by
  simp [startsWithList]

lemma isEchoOut_msgLine (s : Session) (line : String) :
    isEchoOut (Output.broadcast (msgLineEcho s line)) = true := by
  simp only [isEchoOut, msgLineEcho]
  have h : ("[MGS LINE][" ++ toString s.id ++ "][" ++ s.token ++ "] " ++ line).data
      = '[' :: 'M' :: 'G' :: 'S' :: ' ' :: 'L' :: 'I' :: 'N' :: 'E' :: ']' :: '[' ::
        ((toString s.id).data ++ "][".data ++ s.token.data ++ "] ".data ++ line.data) := by
    simp [strData_append]
  rw [h]
  exact startsWith_MGS _

lemma hex2At_some_shape {cs p r : List Char} (h : hex2At cs = some (p, r)) :
    ∃ c1 c2, cs = c1 :: c2 :: r ∧ p = [c1, c2] ∧ isHexDig c1 = true ∧ isHexDig c2 = true := by
  match cs with
  | [] => simp [hex2At] at h
  | [c] => simp [hex2At] at h
  | c1 :: c2 :: tl =>
    cases hc : (isHexDig c1 && isHexDig c2) with
    | true =>
      simp [hex2At, hc] at h
      obtain ⟨h1, h2⟩ := h
      simp at hc
      exact ⟨c1, c2, by rw [h2], by rw [h1], hc.1, hc.2⟩
    | false => simp [hex2At, hc] at h

lemma hex2At_append {cs m r : List Char} (ext : List Char)
    (h : hex2At cs = some (m, r)) : hex2At (cs ++ ext) = some (m, r ++ ext) := by
  obtain ⟨c1, c2, hcs, hp, h1, h2⟩ := hex2At_some_shape h
  subst hcs hp
  simp [hex2At, h1, h2]

lemma macRepsAt_nil_rem {isSep : Char → Bool} {n : Nat} {m r : List Char}
    (h : macRepsAt isSep n [] = some (m, r)) : r = [] := by
  cases n with
  | zero => simp [macRepsAt] at h; exact h.2
  | succ k => simp [macRepsAt, hex2At] at h

lemma macRepsAt_append {isSep : Char → Bool} {n : Nat} :
    ∀ {cs m r : List Char} (ext : List Char) {ch : Char},
      macRepsAt isSep n cs = some (m, ch :: r) →
      macRepsAt isSep n (cs ++ ext) = some (m, ch :: (r ++ ext)) := by
  induction n with
  | zero =>
    intro cs m r ext ch h
    simp [macRepsAt] at h ⊢
    obtain ⟨h1, h2⟩ := h
    subst h2
    exact ⟨h1, rfl⟩
  | succ k ih =>
    intro cs m r ext ch h
    rw [macRepsAt] at h
    cases h1 : hex2At cs with
    | none => rw [h1] at h; simp at h
    | some pr =>
      obtain ⟨p, r1⟩ := pr
      rw [h1] at h
      have h1e := hex2At_append ext h1
      cases r1 with
      | nil =>
        simp at h
        cases h2 : macRepsAt isSep k [] with
        | none => rw [h2] at h; simp at h
        | some pr2 =>
          obtain ⟨m2, rr⟩ := pr2
          have hz : rr = [] := macRepsAt_nil_rem h2
          subst hz
          rw [h2] at h
          simp at h
      | cons c1 r2 =>
        simp at h
        cases hs : isSep c1 with
        | true =>
          rw [hs] at h
          simp at h
          cases h2 : macRepsAt isSep k r2 with
          | none => rw [h2] at h; simp at h
          | some pr2 =>
            obtain ⟨m2, rr⟩ := pr2
            rw [h2] at h
            simp at h
            obtain ⟨hm, hrr⟩ := h
            subst hrr
            rw [macRepsAt]
            rw [show (c1 :: r2) ++ ext = c1 :: (r2 ++ ext) from rfl] at h1e
            rw [h1e]
            simp [hs]
            rw [ih ext h2]
            simp [hm]
        | false =>
          rw [hs] at h
          simp at h
          cases h2 : macRepsAt isSep k (c1 :: r2) with
          | none => rw [h2] at h; simp at h
          | some pr2 =>
            obtain ⟨m2, rr⟩ := pr2
            rw [h2] at h
            simp at h
            obtain ⟨hm, hrr⟩ := h
            subst hrr
            rw [macRepsAt]
            rw [show (c1 :: r2) ++ ext = c1 :: (r2 ++ ext) from rfl] at h1e
            rw [h1e]
            simp [hs]
            rw [show c1 :: (r2 ++ ext) = (c1 :: r2) ++ ext from rfl, ih ext h2]
            simp [hm]

lemma macAt_append {isSep : Char → Bool} {cs m r : List Char} (ext : List Char)
    (h : macAt isSep cs = some (m, r)) : macAt isSep (cs ++ ext) = some (m, r ++ ext) := by
  rw [macAt] at h
  cases h1 : macRepsAt isSep 5 cs with
  | none => rw [h1] at h; simp at h
  | some pr =>
    obtain ⟨m1, r1⟩ := pr
    rw [h1] at h
    simp only [] at h
    cases h2 : hex2At r1 with
    | none => rw [h2] at h; simp at h
    | some pr2 =>
      obtain ⟨p, rr⟩ := pr2
      rw [h2] at h
      simp at h
      obtain ⟨hm, hrr⟩ := h
      obtain ⟨a, b, hr1, _, _, _⟩ := hex2At_some_shape h2
      subst hr1
      have h1e := macRepsAt_append ext h1
      have h2e := hex2At_append ext h2
      simp only [List.cons_append] at h2e
      rw [macAt, h1e]
      simp only [List.cons_append]
      rw [h2e]
      simp [hm, hrr]

lemma macRepsAt_head {isSep : Char → Bool} {n : Nat} {cs m r : List Char}
    (h : macRepsAt isSep (n + 1) cs = some (m, r)) :
    ∃ c m2, m = c :: m2 ∧ isHexDig c = true := by
  rw [macRepsAt] at h
  cases h1 : hex2At cs with
  | none => rw [h1] at h; simp at h
  | some pr =>
    obtain ⟨p, r1⟩ := pr
    rw [h1] at h
    obtain ⟨c1, c2, _, hp, hd1, _⟩ := hex2At_some_shape h1
    subst hp
    cases r1 with
    | nil =>
      simp at h
      cases h2 : macRepsAt isSep n [] with
      | none => rw [h2] at h; simp at h
      | some pr2 =>
        rw [h2] at h
        simp at h
        exact ⟨c1, c2 :: pr2.1, by rw [← h.1], hd1⟩
    | cons d r2 =>
      simp at h
      cases hs : isSep d with
      | true =>
        rw [hs] at h; simp at h
        cases h2 : macRepsAt isSep n r2 with
        | none => rw [h2] at h; simp at h
        | some pr2 =>
          rw [h2] at h; simp at h
          exact ⟨c1, c2 :: d :: pr2.1, by rw [← h.1], hd1⟩
      | false =>
        rw [hs] at h; simp at h
        cases h2 : macRepsAt isSep n (d :: r2) with
        | none => rw [h2] at h; simp at h
        | some pr2 =>
          rw [h2] at h; simp at h
          exact ⟨c1, c2 :: pr2.1, by rw [← h.1], hd1⟩

lemma macAt_head {isSep : Char → Bool} {cs m r : List Char}
    (h : macAt isSep cs = some (m, r)) :
    ∃ c m2, m = c :: m2 ∧ isHexDig c = true := by
  rw [macAt] at h
  cases h1 : macRepsAt isSep 5 cs with
  | none => rw [h1] at h; simp at h
  | some pr =>
    obtain ⟨m1, r1⟩ := pr
    rw [h1] at h
    simp only [] at h
    cases h2 : hex2At r1 with
    | none => rw [h2] at h; simp at h
    | some pr2 =>
      rw [h2] at h
      simp at h
      obtain ⟨c, m2, hm1, hd⟩ := macRepsAt_head (n := 4) h1
      subst hm1
      exact ⟨c, m2 ++ pr2.1, by rw [← h.1]; simp, hd⟩

lemma macRepsAt_hexRun {isSep : Char → Bool} (hsep : ∀ c, isHexDig c = true → isSep c = false) :
    ∀ (n : Nat) (cs r : List Char), (∀ c ∈ cs, isHexDig c = true) → cs.length = 2 * n →
      (r = [] ∨ ∃ ch t, r = ch :: t ∧ isHexDig ch = true) →
      macRepsAt isSep n (cs ++ r) = some (cs, r) := by
  intro n
  induction n with
  | zero =>
    intro cs r hall hlen _
    have hcs : cs = [] := List.length_eq_zero.mp (by omega)
    subst hcs
    simp [macRepsAt]
  | succ k ih =>
    intro cs r hall hlen hr
    rcases cs with _ | ⟨c1, _ | ⟨c2, cs2⟩⟩
    · simp at hlen
    · simp at hlen; omega
    · have hd1 : isHexDig c1 = true := hall c1 (by simp)
      have hd2 : isHexDig c2 = true := hall c2 (by simp)
      have hall2 : ∀ c ∈ cs2, isHexDig c = true := fun c hc => hall c (by simp [hc])
      have hlen2 : cs2.length = 2 * k := by simp at hlen; omega
      have hrec := ih cs2 r hall2 hlen2 hr
      rw [macRepsAt]
      rw [show (c1 :: c2 :: cs2) ++ r = c1 :: c2 :: (cs2 ++ r) from rfl]
      rw [show hex2At (c1 :: c2 :: (cs2 ++ r)) = some ([c1, c2], cs2 ++ r) from by
        simp [hex2At, hd1, hd2]]
      rcases cs2 with _ | ⟨d, cs3⟩
      · rcases hr with hre | ⟨ch, t, hrv, hch⟩
        · subst hre
          simp only [List.nil_append] at hrec ⊢
          rw [hrec]
          simp
        · subst hrv
          simp only [List.nil_append] at hrec ⊢
          simp only [hsep ch hch, if_false, Bool.false_eq_true]
          rw [hrec]
          simp
      · have hdd : isHexDig d = true := hall2 d (by simp)
        simp only [List.cons_append] at hrec ⊢
        simp only [hsep d hdd, if_false, Bool.false_eq_true]
        rw [hrec]
        simp

lemma adminSep_not_hex : ∀ c, isHexDig c = true → adminSep c = false := by
  intro c h
  by_contra hc
  simp only [Bool.not_eq_false] at hc
  simp only [adminSep, Bool.or_eq_true, decide_eq_true_eq] at hc
  rcases hc with rfl | rfl <;> exact absurd h (by decide)

lemma macAt_bareHex {cs : List Char} (hall : ∀ c ∈ cs, isHexDig c = true)
    (hlen : cs.length = 12) : macAt adminSep cs = some (cs, []) := by
  have hsplit : cs = cs.take 10 ++ cs.drop 10 := (List.take_append_drop 10 cs).symm
  have hlen10 : (cs.take 10).length = 10 := by simp [hlen]
  have hlen2 : (cs.drop 10).length = 2 := by simp [hlen]
  have hall10 : ∀ c ∈ cs.take 10, isHexDig c = true := fun c hc => hall c (List.mem_of_mem_take hc)
  have hall2 : ∀ c ∈ cs.drop 10, isHexDig c = true := fun c hc => hall c (List.mem_of_mem_drop hc)
  rcases hd : cs.drop 10 with _ | ⟨a, _ | ⟨b, _ | _⟩⟩
  · rw [hd] at hlen2; simp at hlen2
  · rw [hd] at hlen2; simp at hlen2
  · have ha : isHexDig a = true := hall2 a (by rw [hd]; simp)
    have hb : isHexDig b = true := hall2 b (by rw [hd]; simp)
    have hreps := macRepsAt_hexRun adminSep_not_hex 5 (cs.take 10) (cs.drop 10) hall10
      (by omega) (Or.inr ⟨a, by rw [hd]; exact ⟨_, rfl, ha⟩⟩)
    rw [macAt]
    rw [← hsplit] at hreps
    rw [hreps, hd]
    simp only []
    rw [show hex2At [a, b] = some ([a, b], []) from by simp [hex2At, ha, hb]]
    rw [← hd]
    simp only []
    rw [← hsplit]
  · rw [hd] at hlen2; simp at hlen2

lemma macStarGo_join : ∀ (ts : List String) (tail : List Char) (fuel : Nat),
    (∀ t ∈ ts, MacOK t) → tail.head? ≠ some ',' →
    (joinCommasTail ts ++ tail).length ≤ fuel →
    macStarGo fuel (joinCommasTail ts ++ tail) = some (ts, tail) := by
  intro ts
  induction ts with
  | nil =>
    intro tail fuel _ hh hf
    simp [joinCommasTail] at hf ⊢
    cases tail with
    | nil => cases fuel <;> simp [macStarGo]
    | cons c r =>
      cases fuel with
      | zero => simp at hf
      | succ f =>
        have hc : ¬ c = ',' := by
          intro h
          subst h
          exact hh rfl
        simp [macStarGo, hc]
  | cons t ts ih =>
    intro tail fuel hok hh hf
    have hM : MacOK t := hok t (by simp)
    cases fuel with
    | zero => simp [joinCommasTail] at hf
    | succ f =>
      rw [show joinCommasTail (t :: ts) ++ tail
          = ',' :: (t.data ++ (joinCommasTail ts ++ tail)) from by simp [joinCommasTail]]
      rw [macStarGo]
      rw [if_pos rfl]
      have hmac := macAt_append (joinCommasTail ts ++ tail) hM
      simp only [List.nil_append] at hmac
      rw [hmac]
      simp only []
      rw [ih tail f (fun x hx => hok x (by simp [hx])) hh
        (by simp [joinCommasTail] at hf ⊢; omega)]

lemma dropWs_of_head {cs : List Char} {c : Char} (h : cs.head? = some c)
    (hc : isWsChar c = false) : dropWs cs = cs := by
  cases cs with
  | nil => rfl
  | cons a l =>
    simp at h
    subst h
    simp [dropWs, List.dropWhile_cons, hc]

lemma cmdMacMatch_join {ts : List String} {p : String} {pc : Char} {pd : List Char}
    (hne : ts ≠ []) (hok : ∀ t ∈ ts, MacOK t)
    (hpd : p.data = pc :: pd) (hpw : isWsChar pc = false) :
    cmdMacMatch ("cmd " ++ joinCommas ts ++ " " ++ p) = some (ts, p) := by
  obtain ⟨t, ts2, rfl⟩ : ∃ t ts2, ts = t :: ts2 := by
    cases ts with
    | nil => exact absurd rfl hne
    | cons a b => exact ⟨a, b, rfl⟩
  have hM : MacOK t := hok t (by simp)
  obtain ⟨th, tt, htd, hth⟩ := macAt_head hM
  have hline : ("cmd " ++ joinCommas (t :: ts2) ++ " " ++ p).data
      = 'c' :: 'm' :: 'd' :: ' ' :: (t.data ++ (joinCommasTail ts2 ++ (' ' :: p.data))) := by
    simp [strData_append, joinCommas]
  rw [cmdMacMatch, hline]
  rw [show cmdHeadAt ('c' :: 'm' :: 'd' :: ' ' :: (t.data ++ (joinCommasTail ts2 ++ (' ' :: p.data))))
      = some (dropWs (' ' :: (t.data ++ (joinCommasTail ts2 ++ (' ' :: p.data))))) from by
    simp [cmdHeadAt]
    decide]
  have hdw : dropWs (' ' :: (t.data ++ (joinCommasTail ts2 ++ (' ' :: p.data))))
      = t.data ++ (joinCommasTail ts2 ++ (' ' :: p.data)) := by
    rw [dropWs, List.dropWhile_cons]
    simp only [show isWsChar ' ' = true from by decide, if_true]
    exact dropWs_of_head (by rw [htd]; simp) (isHexDig_not_ws hth)
  rw [hdw]
  simp only []
  have hmac := macAt_append (joinCommasTail ts2 ++ (' ' :: p.data)) hM
  simp only [List.nil_append] at hmac
  rw [hmac]
  simp only []
  rw [macStarGo_join ts2 (' ' :: p.data) _ (fun x hx => hok x (by simp [hx])) (by simp) (le_refl _)]
  simp only []
  have htp : tailPayload (' ' :: p.data) = some p.data := by
    rw [tailPayload]
    simp only [show isWsChar ' ' = true from by decide, if_true]
    rw [show (' ' :: p.data).dropWhile isWsChar = p.data.dropWhile isWsChar from by
      rw [List.dropWhile_cons]
      simp only [show isWsChar ' ' = true from by decide, if_true]]
    rw [show p.data.dropWhile isWsChar = p.data from dropWs_of_head (by rw [hpd]; simp) hpw]
    simp [hpd]
  rw [htp]

lemma lsMatch_none_head {line : String} {c : Char} (h : line.data.head? = some c)
    (h1 : c ≠ 'l') (h2 : c ≠ 'L') : lsMatch line = none := by
  rcases hd : line.data with _ | ⟨c1, _ | ⟨c2, rest⟩⟩ <;> rw [hd] at h <;> simp at h
  · simp [lsMatch, hd]
  · subst h
    simp [lsMatch, hd, h1, h2]

lemma cmdHeadAt_none_head {cs : List Char} {c : Char} (h : cs.head? = some c)
    (h1 : c ≠ 'c') (h2 : c ≠ 'C') : cmdHeadAt cs = none := by
  rcases hd : cs with _ | ⟨c1, _ | ⟨c2, _ | ⟨c3, rest⟩⟩⟩ <;> rw [hd] at h <;> simp at h <;>
    subst h <;> simp [cmdHeadAt, h1, h2]

lemma cmdAllMatch_none_head {line : String} {c : Char} (h : line.data.head? = some c)
    (h1 : c ≠ 'c') (h2 : c ≠ 'C') : cmdAllMatch line = none := by
  rcases hd : line.data with _ | ⟨c1, _ | ⟨c2, _ | ⟨c3, _ | ⟨c4, _ | ⟨c5, _ | ⟨c6, rest⟩⟩⟩⟩⟩⟩ <;>
    rw [hd] at h <;> simp at h <;> subst h <;> simp [cmdAllMatch, hd, h1, h2]

lemma cmdHeadAt_shape {cs : List Char} {r : List Char} (h : cmdHeadAt cs = some r) :
    ∃ c1 rest, cs = c1 :: rest ∧ (c1 = 'c' ∨ c1 = 'C') := by
  rcases hd : cs with _ | ⟨c1, _ | ⟨c2, _ | ⟨c3, rest⟩⟩⟩ <;> rw [hd] at h <;>
    simp [cmdHeadAt] at h
  rcases h with ⟨⟨hc1, _⟩, _⟩
  exact ⟨c1, c2 :: c3 :: rest, rfl, hc1.1⟩

lemma processAdmin_cmdMacBranch {st : ServerState} {now : Nat} {line : String}
    {macs : List String} {cmd : String} (h : cmdMacMatch line = some (macs, cmd)) :
    processAdminCommand now st line = macs.flatMap (cmdMacElemEffects st cmd) := by
  have hhead : ∃ c1 rest, line.data = c1 :: rest ∧ (c1 = 'c' ∨ c1 = 'C') := by
    rw [cmdMacMatch] at h
    cases hh : cmdHeadAt line.data with
    | none => rw [hh] at h; simp at h
    | some r => exact cmdHeadAt_shape hh
  obtain ⟨c1, rest, hd, hc⟩ := hhead
  have hls : lsMatch line = none := by
    rcases hc with rfl | rfl <;>
      exact lsMatch_none_head (by rw [hd]; rfl) (by decide) (by decide)
  rw [processAdminCommand, hls]
  simp only []
  rw [h]

lemma processAdmin_cmdIdBranch {st : ServerState} {now : Nat} {line : String}
    {ts cmd : String} (hmac : cmdMacMatch line = none)
    (h : cmdIdMatch line = some (ts, cmd)) :
    processAdminCommand now st line
      = (splitCommas ts.data).flatMap (cmdIdElemEffects st cmd) := by
  have hhead : ∃ c1 rest, line.data = c1 :: rest ∧ (c1 = 'c' ∨ c1 = 'C') := by
    rw [cmdIdMatch] at h
    cases hh : cmdHeadAt line.data with
    | none => rw [hh] at h; simp at h
    | some r => exact cmdHeadAt_shape hh
  obtain ⟨c1, rest, hd, hc⟩ := hhead
  have hls : lsMatch line = none := by
    rcases hc with rfl | rfl <;>
      exact lsMatch_none_head (by rw [hd]; rfl) (by decide) (by decide)
  rw [processAdminCommand, hls]
  simp only []
  rw [hmac]
  simp only []
  rw [h]

lemma dropWhile_all_false {p : Char → Bool} : ∀ {l : List Char},
    (∀ c ∈ l, p c = false) → l.dropWhile p = l := by
  intro l h
  cases l with
  | nil => rfl
  | cons a t => simp [List.dropWhile_cons, h a (by simp)]

lemma jsTrim_no_ws {s : String} (h : ∀ c ∈ s.data, isWsChar c = false) : jsTrim s = s := by
  rw [jsTrim]
  rw [dropWhile_all_false h]
  rw [dropWhile_all_false (fun c hc => h c (by simpa using hc))]
  simp

lemma applyFw_keeps (s : Session) (line : String) :
    (applyFw s line).mac = s.mac ∧ (applyFw s line).token = s.token ∧
    (applyFw s line).id = s.id := by
  rw [applyFw]
  cases searchCapture "FIRMWARE_VERSION=".data line.data <;> simp

lemma applyBle_keeps (s : Session) (line : String) :
    (applyBle s line).mac = s.mac ∧ (applyBle s line).token = s.token ∧
    (applyBle s line).id = s.id := by
  rw [applyBle]
  cases searchCapture "BLE_MAC=".data line.data <;> simp

lemma applyWifi_keeps (s : Session) (line : String) :
    (applyWifi s line).mac = s.mac ∧ (applyWifi s line).token = s.token ∧
    (applyWifi s line).id = s.id := by
  rw [applyWifi]
  cases searchCapture "WIFI_MAC=".data line.data <;> simp

lemma applyWlan_keeps (s : Session) (line : String) :
    (applyWlan s line).mac = s.mac ∧ (applyWlan s line).token = s.token ∧
    (applyWlan s line).id = s.id := by
  rw [applyWlan]
  cases searchCapture "WLAN_VERSION=".data line.data <;> simp

lemma applyTrace_keeps (s : Session) (line : String) :
    (applyTrace s line).mac = s.mac ∧ (applyTrace s line).token = s.token ∧
    (applyTrace s line).id = s.id := by
  rw [applyTrace]
  cases anchoredCapture "TRACE=".data line.data <;> simp

lemma applyTelemetry_keeps (s : Session) (line : String) :
    (applyTelemetry s line).mac = s.mac ∧ (applyTelemetry s line).token = s.token ∧
    (applyTelemetry s line).id = s.id := by
  rw [applyTelemetry]
  obtain ⟨h1, h2, h3⟩ := applyFw_keeps s line
  obtain ⟨g1, g2, g3⟩ := applyBle_keeps (applyFw s line) line
  obtain ⟨i1, i2, i3⟩ := applyWifi_keeps (applyBle (applyFw s line) line) line
  obtain ⟨j1, j2, j3⟩ := applyWlan_keeps (applyWifi (applyBle (applyFw s line) line) line) line
  obtain ⟨k1, k2, k3⟩ := applyTrace_keeps
    (applyWlan (applyWifi (applyBle (applyFw s line) line) line) line) line
  exact ⟨by rw [k1, j1, i1, g1, h1], by rw [k2, j2, i2, g2, h2], by rw [k3, j3, i3, g3, h3]⟩

lemma startsWith_MAC_msgLine (s : Session) (line : String) :
    startsWithList "[MAC]".data (msgLineEcho s line).data = false := by
  have h : (msgLineEcho s line).data
      = '[' :: 'M' :: 'G' :: 'S' :: (" LINE][".data ++ (toString s.id).data ++ "][".data
          ++ s.token.data ++ "] ".data ++ line.data) := by
    simp [msgLineEcho, strData_append]
  rw [h]
  exact startsWith_MAC_on_MGS _

lemma processLine_not_ident {s : Session} (line : String) (h : s.mac ≠ "NA") :
    (processLine s line).1.mac = s.mac ∧ (processLine s line).1.token = s.token ∧
    deviceWrites (processLine s line).2 = [] ∧
    macBroadcasts (processLine s line).2 = [] ∧
    clearsTimer (processLine s line).2 = false := by
  obtain ⟨k1, k2, k3⟩ := applyTelemetry_keeps s line
  rw [processLine]
  cases hm : macSearch line with
  | none =>
    simp only []
    exact ⟨k1, k2, by simp [deviceWrites],
      by simp [macBroadcasts]; exact startsWith_MAC_msgLine s line, by simp [clearsTimer]⟩
  | some m =>
    simp only []
    rw [if_neg h]
    exact ⟨k1, k2, by simp [deviceWrites],
      by simp [macBroadcasts]; exact startsWith_MAC_msgLine s line, by simp [clearsTimer]⟩

lemma processLine_nomatch {s : Session} {line : String} (hm : macSearch line = none) :
    (processLine s line).1.mac = s.mac ∧ (processLine s line).1.token = s.token := by
  obtain ⟨k1, k2, _⟩ := applyTelemetry_keeps s line
  rw [processLine, hm]
  exact ⟨k1, k2⟩

lemma processLine_ident {s : Session} {line m : String} (h : s.mac = "NA")
    (hm : macSearch line = some m) :
    (processLine s line).1.mac = m ∧ (processLine s line).1.token = stripColons m ∧
    deviceWrites (processLine s line).2 = ["SYS \n", "SYS DBG \n"] ∧
    clearsTimer (processLine s line).2 = true := by
  rw [processLine, hm]
  simp only []
  rw [if_pos h]
  obtain ⟨k1, k2, _⟩ :=
    applyTelemetry_keeps { s with mac := m, token := stripColons m } line
  exact ⟨by rw [k1], by rw [k2], by simp [deviceWrites], by simp [clearsTimer]⟩

/-- Claim C2: the first inbound line matching the MAC-address pattern sets
the session's `mac` and sets `token` to the MAC with colons removed, and
the handler then writes exactly "SYS \n" followed by "SYS DBG \n" to the
device and clears the validation timer; once `mac` is set, any later
MAC-looking line leaves `mac` and `token` unchanged and produces no
device write and no "[MAC]" identification broadcast, and a line with no
MAC match leaves `mac` at the sentinel and `token` unchanged. -/
theorem c2_first_mac_identifies (s : Session) (line m : String)
    (h1 : s.mac = "NA") (h2 : macSearch line = some m) :
    ((processLine s line).1.mac = m ∧
      (processLine s line).1.token = stripColons m ∧
      deviceWrites (processLine s line).2 = ["SYS \n", "SYS DBG \n"] ∧
      clearsTimer (processLine s line).2 = true) ∧
    (∀ (s2 : Session) (line2 : String), s2.mac ≠ "NA" →
      (processLine s2 line2).1.mac = s2.mac ∧
      (processLine s2 line2).1.token = s2.token ∧
      deviceWrites (processLine s2 line2).2 = [] ∧
      macBroadcasts (processLine s2 line2).2 = [] ∧
      clearsTimer (processLine s2 line2).2 = false) ∧
    (∀ line0 : String, macSearch line0 = none →
      (processLine s line0).1.mac = "NA" ∧ (processLine s line0).1.token = s.token) := by
  refine ⟨processLine_ident h1 h2, fun s2 line2 h => processLine_not_ident line2 h, ?_⟩
  intro line0 h0
  obtain ⟨a, b⟩ := processLine_nomatch (s := s) h0
  exact ⟨by rw [a, h1], b⟩

/-- Witness for C2 at a fresh session and the line "AA:BB:CC:DD:EE:FF". -/
theorem c2_first_mac_identifies_witness :
    (mkSession 1001 "1.2.3.4" 0).mac = "NA" ∧
    macSearch "AA:BB:CC:DD:EE:FF" = some "AA:BB:CC:DD:EE:FF" ∧
    (processLine (mkSession 1001 "1.2.3.4" 0) "AA:BB:CC:DD:EE:FF").1.token = "AABBCCDDEEFF" :=
  ⟨rfl, by decide, by
    have h := c2_first_mac_identifies (mkSession 1001 "1.2.3.4" 0) "AA:BB:CC:DD:EE:FF"
      "AA:BB:CC:DD:EE:FF" rfl (by decide)
    rw [h.1.2.1]
    decide⟩

/-- Claim C3: when the validation timer fires for a registered session
whose `mac` is still the sentinel "NA", the effects are exactly the
not-valid broadcast, the rejection write to the device, and a force-close,
and the subsequent close event removes the session from the registry; if
`mac` was already set, the timer changes nothing and emits nothing. -/
theorem c3_validation_timer (st : ServerState) (sid : Nat) (s : Session)
    (h : findSessionById st sid = some s) :
    (s.mac = "NA" →
      (step st (Ev.validationTimer sid)).2 =
        [Output.broadcast ("[DEV NOT VALID] " ++ s.addr ++ " " ++ s.mac),
          Output.deviceWrite s.id "Not Valid\n", Output.deviceClose s.id] ∧
      findSessionById (step st (Ev.closeConn sid)).1 sid = none) ∧
    (s.mac ≠ "NA" → step st (Ev.validationTimer sid) = (st, [])) := by
  constructor
  · intro hmac
    constructor
    · simp [step, h, timerEffects, hmac]
    · rw [step]
      simp only [h]
      rw [findSessionById]
      apply List.find?_eq_none.mpr
      intro x hx
      simp [List.mem_filter] at hx
      simp [hx.2]
  · intro hmac
    simp [step, h, timerEffects, hmac]

/-- Witness for C3 at a one-session state with an unidentified session. -/
theorem c3_validation_timer_witness :
    findSessionById { sessions := [mkSession 1001 "1.2.3.4" 0], counter := 1001 } 1001
      = some (mkSession 1001 "1.2.3.4" 0) ∧
    (mkSession 1001 "1.2.3.4" 0).mac = "NA" ∧
    (step { sessions := [mkSession 1001 "1.2.3.4" 0], counter := 1001 }
        (Ev.validationTimer 1001)).2 =
      [Output.broadcast "[DEV NOT VALID] 1.2.3.4 NA",
        Output.deviceWrite 1001 "Not Valid\n", Output.deviceClose 1001] :=
  ⟨by decide, rfl, by
    have h := (c3_validation_timer
      { sessions := [mkSession 1001 "1.2.3.4" 0], counter := 1001 } 1001
      (mkSession 1001 "1.2.3.4" 0) (by decide)).1 rfl
    rw [h.1]
    decide⟩

/-- Claim C5 (code bug evaluation): at creation, `trace`, `fwVer`,
`bleMac` and `wlanFwVer` hold the sentinel "NA", but `wifiMac` is absent
(`none`, i.e. undefined in the source) rather than "NA" — the session
literal never initializes it even though CONFIG.SESSION_DEFAULTS declares
WIFI_MAC = "NA"; a WIFI_MAC telemetry line then assigns it. -/
theorem c5_wifiMac_uninitialized :
    (mkSession 1001 "1.2.3.4" 0).trace = "NA" ∧
    (mkSession 1001 "1.2.3.4" 0).fwVer = "NA" ∧
    (mkSession 1001 "1.2.3.4" 0).bleMac = "NA" ∧
    (mkSession 1001 "1.2.3.4" 0).wlanFwVer = "NA" ∧
    (mkSession 1001 "1.2.3.4" 0).wifiMac = none ∧
    (mkSession 1001 "1.2.3.4" 0).wifiMac ≠ some "NA" ∧
    (processLine (mkSession 1001 "1.2.3.4" 0) "WIFI_MAC=8C:4F:00:A5:5C:7C").1.wifiMac
      = some "8C:4F:00:A5:5C:7C" := by decide

lemma isHexDig_ne_X {c : Char} (h : isHexDig c = true) : c ≠ 'X' := by
  rintro rfl
  simp [isHexDig] at h

lemma takeWhile_all_true {p : Char → Bool} : ∀ {l : List Char},
    (∀ c ∈ l, p c = true) → l.takeWhile p = l := by
  intro l
  induction l with
  | nil => intro _; rfl
  | cons a t ih =>
    intro h
    rw [List.takeWhile_cons_of_pos (h a (by simp))]
    rw [ih (fun c hc => h c (by simp [hc]))]

lemma startsWith0x_false {cs : List Char} {x : Char}
    (hall : ∀ c ∈ cs, isHexDig c = true) (hx : isHexDig x = false) :
    startsWithList ['0', x] cs = false := by
  rcases cs with _ | ⟨a, _ | ⟨b, t⟩⟩
  · rfl
  · simp [startsWithList]
  · have hb : isHexDig b = true := hall b (by simp)
    have hbx : ¬ b = x := by
      rintro rfl
      rw [hb] at hx
      exact absurd hx (by simp)
    simp [startsWithList]
    intro _
    exact fun hxb => hbx hxb.symm

lemma parseId_hexRun {s : String} (hne : s.data ≠ [])
    (hall : ∀ c ∈ s.data, isHexDig c = true) :
    parseId s = some (if s.data.any isHexLetterChar then digitsVal 16 s.data
      else digitsVal 10 s.data) := by
  have h0x : startsWithList ['0', 'x'] s.data = false :=
    startsWith0x_false hall (by decide)
  have h0X : startsWithList ['0', 'X'] s.data = false :=
    startsWith0x_false hall (by decide)
  rw [parseId]
  simp only [h0x, Bool.false_or]
  cases hany : s.data.any isHexLetterChar with
  | true =>
    simp only [if_pos rfl]
    rw [parseIntJs]
    simp only [h0x, h0X, Bool.or_self, Bool.and_false, if_true,
      if_neg (show ¬ false = true by simp)]
    rw [takeWhile_all_true (p := isDigitIn 16) (fun c hc => isHexDig_digitIn16 (hall c hc))]
    simp only [if_neg hne, digitsVal]
  | false =>
    simp only [if_neg (by simp : ¬ false = true)]
    have hnolet : ∀ c ∈ s.data, isHexLetterChar c = false := by
      intro c hc
      by_contra hcl
      simp only [Bool.not_eq_false] at hcl
      have := List.any_eq_true.mpr ⟨c, hc, hcl⟩
      rw [hany] at this
      exact absurd this (by simp)
    rw [parseIntJs]
    simp only [show decide (10 = 16) = false from by decide, Bool.false_and,
      if_neg (show ¬ false = true by simp)]
    rw [takeWhile_all_true (p := isDigitIn 10)
      (fun c hc => isHexDig_no_letter_digitIn10 (hall c hc) (hnolet c hc))]
    simp only [if_neg hne, digitsVal]

lemma dropMatch_shape {line t : String} (h : dropMatch line = some t) :
    t.data ≠ [] ∧ ∀ c ∈ t.data, isHexDig c = true := by
  rw [dropMatch] at h
  rcases hd : line.data with _ | ⟨c1, tl1⟩
  · rw [hd] at h; simp at h
  rcases tl1 with _ | ⟨c2, tl2⟩
  · rw [hd] at h; simp at h
  rcases tl2 with _ | ⟨c3, tl3⟩
  · rw [hd] at h; simp at h
  rcases tl3 with _ | ⟨c4, rest⟩
  · rw [hd] at h; simp at h
  rw [hd] at h
  simp only [] at h
  split at h
  · rcases rest with _ | ⟨c, rest2⟩
    · simp at h
    simp only [] at h
    split at h
    · split at h
      · rename_i hcond
        simp only [Option.some_inj] at h
        simp only [Bool.and_eq_true] at hcond
        obtain ⟨hne2, hall⟩ := hcond
        rw [← h]
        refine ⟨by simpa using hne2, ?_⟩
        intro x hx
        exact List.all_eq_true.mp hall x (by simpa using hx)
      · simp at h
    · simp at h
  · simp at h

lemma step_counter_eq (st : ServerState) (ev : Ev) (h : ∀ a n, ev ≠ Ev.connect a n) :
    (step st ev).1.counter = st.counter := by
  cases ev with
  | connect a n => exact absurd rfl (h a n)
  | deviceData sid chunk =>
    rw [step]
    cases findSessionById st sid <;> simp
  | validationTimer sid =>
    rw [step]
    cases findSessionById st sid <;> simp
  | closeConn sid =>
    rw [step]
    cases findSessionById st sid <;> simp
  | adminLine now line => rfl

lemma newIds_range : ∀ (evs : List Ev) (st : ServerState),
    newIds st evs = List.range' (st.counter + 1) (countConnects evs) := by
  intro evs
  induction evs with
  | nil => intro st; rfl
  | cons e es ih =>
    intro st
    cases e with
    | connect a n =>
      have hc : (step st (Ev.connect a n)).1.counter = st.counter + 1 := rfl
      simp only [newIds, countConnects]
      rw [ih, hc]
      rfl
    | deviceData sid chunk =>
      simp only [newIds, countConnects]
      rw [ih, step_counter_eq st _ (by intro a n h; cases h)]
    | validationTimer sid =>
      simp only [newIds, countConnects]
      rw [ih, step_counter_eq st _ (by intro a n h; cases h)]
    | closeConn sid =>
      simp only [newIds, countConnects]
      rw [ih, step_counter_eq st _ (by intro a n h; cases h)]
    | adminLine now line =>
      simp only [newIds, countConnects]
      rw [ih, step_counter_eq st _ (by intro a n h; cases h)]

lemma range'_pairwise_lt (n : Nat) : ∀ s : Nat, (List.range' s n).Pairwise (· < ·) := by
  induction n with
  | zero => intro s; exact List.Pairwise.nil
  | succ k ih =>
    intro s
    rw [List.range'_succ]
    refine List.Pairwise.cons ?_ (ih (s + 1))
    intro y hy
    have := (List.mem_range'_1.mp hy).1
    omega

/-- Claim C4: over any event sequence from the initial state, the session
IDs handed out by connect events are exactly 1001, 1002, ... in order
(`List.range' 1001 n` for n connects), hence the first ID is 1001, IDs are
strictly increasing, and no ID is ever assigned twice — regardless of any
interleaved closes, data, timers or admin commands. -/
theorem c4_session_ids (evs : List Ev) :
    newIds initialState evs = List.range' 1001 (countConnects evs) ∧
    (newIds initialState evs).Pairwise (· < ·) := by
  have h := newIds_range evs initialState
  exact ⟨h, by rw [h]; exact range'_pairwise_lt _ _⟩

/-- Claim C6: for any target string made of hex digits (the strings the
`cmd`/`drop` grammars can produce), `parseId` parses it in base 16 exactly
when it contains a hex letter A-F/a-f and in base 10 otherwise (a "0x"
prefix cannot occur in grammar-accepted strings, and `parseId` would treat
it as hex); "3E8" and "1000" both parse to 1000; a `cmd` target that fails
to parse yields exactly the per-target "Invalid ID format" broadcast; a
`drop`-accepted capture never fails to parse (so the silent-skip branch is
vacuous there), and an unparseable ID in the drop branch yields no
output at all. -/
theorem c6_parse_auto_detect (s : String) (st : ServerState)
    (hne : s.data ≠ []) (hall : ∀ c ∈ s.data, isHexDig c = true) :
    parseId s = some (if s.data.any isHexLetterChar then digitsVal 16 s.data
      else digitsVal 10 s.data) ∧
    (parseId "3E8" = some 1000 ∧ parseId "1000" = some 1000) ∧
    (∀ cmd e, parseId e = none →
      cmdIdElemEffects st cmd e
        = [Output.broadcast ("[CMD ERROR] Invalid ID format: " ++ e)]) ∧
    (∀ line t, dropMatch line = some t → parseId t ≠ none) ∧
    (∀ t, parseId t = none → dropEffects st t = []) := by
  refine ⟨parseId_hexRun hne hall, ⟨by decide, by decide⟩, ?_, ?_, ?_⟩
  · intro cmd e he
    rw [cmdIdElemEffects, he]
  · intro line t hdm
    obtain ⟨h1, h2⟩ := dropMatch_shape hdm
    rw [parseId_hexRun h1 h2]
    simp
  · intro t ht
    rw [dropEffects, ht]

/-- Witness for C6 at the strings "3E8" and "1000". -/
theorem c6_parse_auto_detect_witness :
    ("3E8" : String).data ≠ [] ∧ (∀ c ∈ ("3E8" : String).data, isHexDig c = true) ∧
    parseId "3E8" = some 1000 ∧ parseId "1000" = some 1000 :=
  ⟨by decide, by decide,
    (c6_parse_auto_detect "3E8" initialState (by decide) (by decide)).2.1.1,
    (c6_parse_auto_detect "3E8" initialState (by decide) (by decide)).2.1.2⟩

lemma startsWith_MGS_on_MAC (rest : List Char) :
    startsWithList "[MGS LINE]".data ('[' :: 'M' :: 'A' :: rest) = false := by
  simp [startsWithList]

lemma isEchoOut_macBroadcast (m a : String) :
    isEchoOut (Output.broadcast ("[MAC] " ++ m ++ " " ++ a)) = false := by
  simp only [isEchoOut]
  have h : ("[MAC] " ++ m ++ " " ++ a).data
      = '[' :: 'M' :: 'A' :: ("C] ".data ++ m.data ++ " ".data ++ a.data) := by
    simp [strData_append]
  rw [h]
  exact startsWith_MGS_on_MAC _

lemma isEchoOut_deviceWrite (sid : Nat) (m : String) :
    isEchoOut (Output.deviceWrite sid m) = false := rfl

lemma isEchoOut_clearTimer (sid : Nat) :
    isEchoOut (Output.clearValidationTimer sid) = false := rfl

/-- Counterexample to C8 as stated: the chunk "TRACE=a\nTRACE=b" is
handled as ONE message — the code's trace is "a" (the anchored capture
stops at the newline), while processing the newline-split lines
separately, as the claim requires, would leave trace "b". -/
theorem c8_chunk_counterexample :
    (handleData (mkSession 1001 "1.2.3.4" 0) "TRACE=a\nTRACE=b").1.trace = "a" ∧
    (runLines (mkSession 1001 "1.2.3.4" 0) (specSplitLines "TRACE=a\nTRACE=b")).trace = "b" ∧
    (handleData (mkSession 1001 "1.2.3.4" 0) "TRACE=a\nTRACE=b").1
      ≠ runLines (mkSession 1001 "1.2.3.4" 0) (specSplitLines "TRACE=a\nTRACE=b") := by
  decide

/-- Claim C8 (amended): a device connection handles each delivered chunk
as at most one message: the chunk is whitespace-trimmed and, when
nonempty, processed as a single line whose audit echo carries the whole
trimmed chunk (newlines inside the chunk are not split); empty-trimming
chunks are ignored. -/
theorem c8_chunk_single_message (s : Session) (chunk : String) :
    countEcho (handleData s chunk).2 = (if jsTrim chunk = "" then 0 else 1) ∧
    (jsTrim chunk ≠ "" →
      (handleData s chunk).2.head?
        = some (Output.broadcast (msgLineEcho s (jsTrim chunk)))) := by
  rw [handleData]
  by_cases h : jsTrim chunk = ""
  · rw [if_pos h, if_pos h]
    exact ⟨by simp [countEcho], fun hc => absurd h hc⟩
  · rw [if_neg h, if_neg h]
    constructor
    · rw [processLine]
      cases hm : macSearch (jsTrim chunk) with
      | none => simp [countEcho, isEchoOut_msgLine]
      | some m =>
        by_cases hNA : s.mac = "NA"
        · simp only [if_pos hNA]
          simp [countEcho, List.filter_cons, isEchoOut_msgLine, isEchoOut_macBroadcast,
            isEchoOut_deviceWrite, isEchoOut_clearTimer]
        · simp only [if_neg hNA]
          simp [countEcho, isEchoOut_msgLine]
    · intro _
      rw [processLine]
      cases hm : macSearch (jsTrim chunk) with
      | none => simp
      | some m =>
        by_cases hNA : s.mac = "NA"
        · simp only [if_pos hNA]
          simp
        · simp only [if_neg hNA]
          simp

/-- Witness for the amended C8 at the two-line chunk. -/
theorem c8_chunk_single_message_witness :
    jsTrim "TRACE=a\nTRACE=b" ≠ "" ∧
    countEcho (handleData (mkSession 1001 "1.2.3.4" 0) "TRACE=a\nTRACE=b").2 = 1 := by
  refine ⟨by decide, ?_⟩
  have h := (c8_chunk_single_message (mkSession 1001 "1.2.3.4" 0) "TRACE=a\nTRACE=b").1
  rw [h]
  decide

lemma startsWithList_iff : ∀ (n h : List Char), startsWithList n h = true ↔ n <+: h := by
  intro n
  induction n with
  | nil => intro h; simp [startsWithList]
  | cons a as ih =>
    intro h
    cases h with
    | nil => simp [startsWithList]
    | cons b bs =>
      rw [startsWithList, List.cons_prefix_cons]
      simp [ih bs]

lemma containsList_iff (n : List Char) : ∀ h : List Char,
    containsList n h = true ↔ n <:+: h := by
  intro h
  induction h with
  | nil =>
    rw [containsList, startsWithList_iff, List.prefix_nil, List.infix_nil]
  | cons c t ih =>
    rw [containsList, List.infix_cons_iff]
    simp [startsWithList_iff, ih]

lemma strContains_iff (hay sub : String) :
    strContains hay sub = true ↔ sub.data <:+: hay.data := containsList_iff _ _

lemma ls_no_filter (st : ServerState) (now : Nat) :
    processAdminCommand now st "ls"
      = st.sessions.map (fun s => Output.broadcast (sessLine now s)) := by
  rw [processAdminCommand, show lsMatch "ls" = some "" from rfl]
  simp only []
  induction st.sessions with
  | nil => rfl
  | cons a t ih => simp_all

lemma ls_with_filter (st : ServerState) (now : Nat) (opt : String) {oc : Char}
    {od : List Char} (hod : opt.data = oc :: od) (how : isWsChar oc = false) :
    processAdminCommand now st ("ls " ++ opt)
      = ((st.sessions.map (sessLine now)).filter
          (fun l => strContains l opt)).map Output.broadcast := by
  have hne : opt ≠ "" := by
    intro h
    rw [h] at hod
    simp at hod
  have hls : lsMatch ("ls " ++ opt) = some opt := by
    have hdata : ("ls " ++ opt).data = 'l' :: 's' :: ' ' :: opt.data := by
      simp [strData_append]
    rw [lsMatch, hdata]
    simp only []
    rw [show dropWs (' ' :: opt.data) = opt.data from by
      rw [dropWs, List.dropWhile_cons]
      simp only [show isWsChar ' ' = true from by decide, if_true]
      exact dropWs_of_head (by rw [hod]; rfl) how]
    rw [strMk_data]
    simp
  rw [processAdminCommand, hls]
  simp only []
  induction st.sessions with
  | nil => rfl
  | cons a t ih =>
    simp only [List.flatMap_cons, List.map_cons, List.filter_cons,
      show decide (opt = "") = false from by simp [hne], Bool.false_or]
    cases hq : strContains (sessLine now a) opt <;> simp_all

/-- Claim C7: `ls` broadcasts exactly one formatted line per live
session, in insertion order; `ls <filter>` (nonempty filter) broadcasts a
session's line iff the filter occurs in it, where the occurrence check is
exactly substring containment; and each line has the documented
`[SESS][id][token] <days> days, HH:MM:SS trace: <trace>\t<fwVer>\t--
<addr>` shape. -/
theorem c7_ls_output (st : ServerState) (now : Nat) (opt : String) (oc : Char)
    (od : List Char) (hod : opt.data = oc :: od) (how : isWsChar oc = false) :
    processAdminCommand now st "ls"
      = st.sessions.map (fun s => Output.broadcast (sessLine now s)) ∧
    processAdminCommand now st ("ls " ++ opt)
      = ((st.sessions.map (sessLine now)).filter
          (fun l => strContains l opt)).map Output.broadcast ∧
    (∀ hay sub : String, strContains hay sub = true ↔ sub.data <:+: hay.data) ∧
    (∀ s : Session,
      sessLine now s = "[SESS][" ++ toString s.id ++ "][" ++ s.token ++ "] "
        ++ formatUptime (now - s.start) ++ " trace: " ++ s.trace ++ "\t" ++ s.fwVer
        ++ "\t-- " ++ s.addr) :=
  ⟨ls_no_filter st now, ls_with_filter st now opt hod how,
    strContains_iff, fun _ => rfl⟩

/-- Witness for C7 at a one-session registry. -/
theorem c7_ls_output_witness :
    ("tok" : String).data = 't' :: ['o', 'k'] ∧ isWsChar 't' = false ∧
    processAdminCommand 0 { sessions := [mkSession 1001 "1.2.3.4" 0], counter := 1001 } "ls"
      = [Output.broadcast (sessLine 0 (mkSession 1001 "1.2.3.4" 0))] := by
  refine ⟨rfl, by decide, ?_⟩
  have h := (c7_ls_output { sessions := [mkSession 1001 "1.2.3.4" 0], counter := 1001 }
    0 "tok" 't' ['o', 'k'] rfl (by decide)).1
  rw [h]
  rfl

lemma dropMatch_join {idStr : String} {c : Char} {cd : List Char}
    (hd : idStr.data = c :: cd) (hall : ∀ x ∈ idStr.data, isHexDig x = true) :
    dropMatch ("drop " ++ idStr) = some idStr := by
  have hdata : ("drop " ++ idStr).data = 'd' :: 'r' :: 'o' :: 'p' :: ' ' :: idStr.data := by
    simp [strData_append]
  have hcw : isWsChar c = false := isHexDig_not_ws (hall c (by rw [hd]; simp))
  rw [dropMatch, hdata]
  simp only []
  rw [show dropWs (' ' :: idStr.data) = idStr.data from by
    rw [dropWs, List.dropWhile_cons]
    simp only [show isWsChar ' ' = true from by decide, if_true]
    exact dropWs_of_head (by rw [hd]; rfl) hcw]
  have h1 : idStr.data ≠ [] := by rw [hd]; simp
  have h2 : idStr.data.all isHexDig = true := List.all_eq_true.mpr hall
  simp [h1, h2, strMk_data, show isWsChar ' ' = true from by decide]

lemma processAdmin_dropBranch (st : ServerState) (now : Nat) {line idStr : String}
    (hhead : line.data.head? = some 'd') (h : dropMatch line = some idStr) :
    processAdminCommand now st line = dropEffects st idStr := by
  rw [processAdminCommand, lsMatch_none_head hhead (by decide) (by decide)]
  simp only []
  rw [show cmdMacMatch line = none from by
    rw [cmdMacMatch, cmdHeadAt_none_head hhead (by decide) (by decide)]]
  simp only []
  rw [show cmdIdMatch line = none from by
    rw [cmdIdMatch, cmdHeadAt_none_head hhead (by decide) (by decide)]]
  simp only []
  rw [cmdAllMatch_none_head hhead (by decide) (by decide)]
  simp only []
  rw [h]

lemma find_some_id {st : ServerState} {id : Nat} {s : Session}
    (h : findSessionById st id = some s) : s.id = id := by
  rw [findSessionById] at h
  have := List.find?_some h
  simpa using this

lemma closeConn_removes {st : ServerState} {sid : Nat} {s : Session}
    (h : findSessionById st sid = some s) :
    (step st (Ev.closeConn sid)).1.sessions
        = st.sessions.filter (fun t => ¬ t.id = sid) ∧
    findSessionById (step st (Ev.closeConn sid)).1 sid = none := by
  have hstate : (step st (Ev.closeConn sid)).1
      = { st with sessions := st.sessions.filter (fun t => ¬ t.id = sid) } := by
    rw [step]
    simp only [h]
  refine ⟨by rw [hstate], ?_⟩
  rw [hstate, findSessionById]
  apply List.find?_eq_none.mpr
  intro x hx
  simp [List.mem_filter] at hx
  simp [hx.2]

/-- Claim C9: `drop <id>` with an ID that resolves to no session
produces no output at all (no broadcast, no error); with a registered
session it broadcasts the drop event, writes the drop message and
force-closes, after which the close event removes the session and `ls`
no longer lists it. -/
theorem c9_drop_behavior (st : ServerState) (now : Nat) (idStr : String) (id : Nat)
    (c : Char) (cd : List Char) (hd : idStr.data = c :: cd)
    (hall : ∀ x ∈ idStr.data, isHexDig x = true) (hp : parseId idStr = some id) :
    (findSessionById st id = none →
      processAdminCommand now st ("drop " ++ idStr) = []) ∧
    (∀ s, findSessionById st id = some s →
      processAdminCommand now st ("drop " ++ idStr) =
        [Output.broadcast ("[DROP] " ++ toString id),
          Output.deviceWrite s.id "Connection dropped by admin.\n",
          Output.deviceClose s.id] ∧
      findSessionById (step st (Ev.closeConn s.id)).1 id = none ∧
      processAdminCommand now (step st (Ev.closeConn s.id)).1 "ls"
        = ((st.sessions.filter (fun t => ¬ t.id = s.id)).map
            (fun t => Output.broadcast (sessLine now t)))) := by
  have hhead : ("drop " ++ idStr).data.head? = some 'd' := by
    rw [show ("drop " ++ idStr).data = 'd' :: 'r' :: 'o' :: 'p' :: ' ' :: idStr.data from by
      simp [strData_append]]
    rfl
  have hbranch := processAdmin_dropBranch st now hhead (dropMatch_join hd hall)
  constructor
  · intro hnf
    rw [hbranch, dropEffects, hp]
    simp only []
    rw [hnf]
  · intro s hf
    have hsid : s.id = id := find_some_id hf
    have hfid : findSessionById st s.id = some s := by rw [hsid]; exact hf
    obtain ⟨hsess, hrem⟩ := closeConn_removes hfid
    refine ⟨?_, by rw [← hsid]; exact hrem, ?_⟩
    · rw [hbranch, dropEffects, hp]
      simp only []
      rw [hf]
    · rw [ls_no_filter, hsess]

/-- Witness for C9 dropping the only registered session. -/
theorem c9_drop_behavior_witness :
    parseId "1001" = some 1001 ∧
    processAdminCommand 0 { sessions := [mkSession 1001 "1.2.3.4" 0], counter := 1001 }
        ("drop " ++ "1001")
      = [Output.broadcast "[DROP] 1001",
          Output.deviceWrite 1001 "Connection dropped by admin.\n",
          Output.deviceClose 1001] := by
  refine ⟨by decide, ?_⟩
  have h := ((c9_drop_behavior { sessions := [mkSession 1001 "1.2.3.4" 0], counter := 1001 }
    0 "1001" 1001 '1' ['0', '0', '1'] rfl (by decide) (by decide)).2
    (mkSession 1001 "1.2.3.4" 0) (by decide)).1
  rw [h]
  decide

/-- Claim C1 (amended): the dispatcher decides per target LIST, not per
element — if every comma-separated element matches the MAC grammar, each
element is independently resolved by MAC lookup with a per-target error
broadcast on failure and no element aborting the rest (effects are the
concatenation of per-element effects); otherwise, if the CMD_ID grammar
matches, every split element is resolved as an ID the same way, an
unparseable element producing exactly one per-target error broadcast. A
list mixing IDs with separator-written MACs matches neither grammar (see
the counterexample). -/
theorem c1_target_list_dispatch (st : ServerState) (now : Nat) (ts : List String)
    (p : String) (pc : Char) (pd : List Char)
    (hne : ts ≠ []) (hok : ∀ t ∈ ts, MacOK t)
    (hpd : p.data = pc :: pd) (hpw : isWsChar pc = false) (hnl : '\n' ∉ p.data) :
    processAdminCommand now st ("cmd " ++ joinCommas ts ++ " " ++ p)
      = ts.flatMap (cmdMacElemEffects st p) ∧
    (∀ line ts2 p2, cmdMacMatch line = none → cmdIdMatch line = some (ts2, p2) →
      processAdminCommand now st line
        = (splitCommas ts2.data).flatMap (cmdIdElemEffects st p2)) ∧
    (∀ e, parseId e = none →
      cmdIdElemEffects st p e
        = [Output.broadcast ("[CMD ERROR] Invalid ID format: " ++ e)]) := by
  refine ⟨?_, ?_, ?_⟩
  · exact processAdmin_cmdMacBranch (cmdMacMatch_join hne hok hpd hpw)
  · intro line ts2 p2 hm hi
    exact processAdmin_cmdIdBranch hm hi
  · intro e he
    rw [cmdIdElemEffects, he]

/-- Counterexample to C1 as stated: with a session whose ID is 1001 and
whose MAC is "AA:BB:CC:DD:EE:FF" both registered, the mixed-target line
"cmd 1001,AA:BB:CC:DD:EE:FF ping" produces NO output whatsoever — neither
element is resolved by its own kind and no per-target error is broadcast,
because the mixed list matches neither CMD_MAC nor CMD_ID. -/
theorem c1_mixed_list_counterexample :
    findSessionById
        { sessions := [{ mkSession 1001 "1.2.3.4" 0 with mac := "AA:BB:CC:DD:EE:FF" }],
          counter := 1001 } 1001
      = some { mkSession 1001 "1.2.3.4" 0 with mac := "AA:BB:CC:DD:EE:FF" } ∧
    findSessionByMac
        { sessions := [{ mkSession 1001 "1.2.3.4" 0 with mac := "AA:BB:CC:DD:EE:FF" }],
          counter := 1001 } "AA:BB:CC:DD:EE:FF"
      = some { mkSession 1001 "1.2.3.4" 0 with mac := "AA:BB:CC:DD:EE:FF" } ∧
    processAdminCommand 0
        { sessions := [{ mkSession 1001 "1.2.3.4" 0 with mac := "AA:BB:CC:DD:EE:FF" }],
          counter := 1001 }
        "cmd 1001,AA:BB:CC:DD:EE:FF ping" = [] := by
  decide

/-- Witness for the amended C1 at a single-MAC target list. -/
theorem c1_target_list_dispatch_witness :
    (["AA:BB:CC:DD:EE:FF"] : List String) ≠ [] ∧
    (∀ t ∈ (["AA:BB:CC:DD:EE:FF"] : List String), MacOK t) ∧
    ("ping" : String).data = 'p' :: ['i', 'n', 'g'] ∧ isWsChar 'p' = false ∧
    processAdminCommand 0 initialState
        ("cmd " ++ joinCommas ["AA:BB:CC:DD:EE:FF"] ++ " " ++ "ping")
      = [Output.broadcast "[CMD ERROR] Device MAC AA:BB:CC:DD:EE:FF not found."] := by
  refine ⟨by simp, ?_, rfl, by decide, ?_⟩
  · intro t ht
    simp at ht
    subst ht
    decide
  · have h := (c1_target_list_dispatch initialState 0 ["AA:BB:CC:DD:EE:FF"] "ping"
      'p' ['i', 'n', 'g'] (by simp)
      (by intro t ht; simp at ht; subst ht; decide) rfl (by decide) (by decide)).1
    rw [h]
    decide

/-- Claim C10: a target of twelve bare hex digits always takes the
CMD_MAC branch (tried before CMD_ID), so the element is resolved by exact
MAC lookup via findSessionByMac, never by ID lookup — for every registry
state, including ones where a session's ID written in hex equals the
twelve-digit string. -/
theorem c10_bare_hex_target_is_mac (st : ServerState) (now : Nat) (t p : String)
    (pc : Char) (pd : List Char)
    (hlen : t.data.length = 12) (hall : ∀ c ∈ t.data, isHexDig c = true)
    (hpd : p.data = pc :: pd) (hpw : isWsChar pc = false) (hnl : '\n' ∉ p.data) :
    processAdminCommand now st ("cmd " ++ t ++ " " ++ p) = cmdMacElemEffects st p t ∧
    cmdMacElemEffects st p t
      = (match findSessionByMac st t with
        | some s =>
          if s.writable then
            [Output.broadcast ("[CMD] " ++ p), Output.deviceWrite s.id (p ++ "\n")]
          else [Output.broadcast ("[CMD ERROR] Device MAC " ++ t ++ " socket not writable.")]
        | none => [Output.broadcast ("[CMD ERROR] Device MAC " ++ t ++ " not found.")]) := by
  have hM : MacOK t := macAt_bareHex hall hlen
  have hjoin : joinCommas [t] = t := by
    rw [joinCommas, joinCommasTail]
    simp [strMk_data]
  have h1 : processAdminCommand now st ("cmd " ++ joinCommas [t] ++ " " ++ p)
      = [t].flatMap (cmdMacElemEffects st p) :=
    processAdmin_cmdMacBranch (cmdMacMatch_join (by simp)
      (by intro x hx; simp at hx; subst hx; exact hM) hpd hpw)
  rw [hjoin] at h1
  refine ⟨by rw [h1]; simp, ?_⟩
  rw [cmdMacElemEffects]
  rw [jsTrim_no_ws (fun c hc => isHexDig_not_ws (hall c hc))]

/-- Witness for C10: a bare-hex MAC target reaches its session. -/
theorem c10_bare_hex_target_is_mac_witness :
    ("AABBCCDDEEFF" : String).data.length = 12 ∧
    (∀ c ∈ ("AABBCCDDEEFF" : String).data, isHexDig c = true) ∧
    processAdminCommand 0
        { sessions := [{ mkSession 1001 "1.2.3.4" 0 with mac := "AABBCCDDEEFF" }],
          counter := 1001 }
        ("cmd " ++ "AABBCCDDEEFF" ++ " " ++ "ping")
      = [Output.broadcast "[CMD] ping", Output.deviceWrite 1001 "ping\n"] := by
  refine ⟨by decide, by decide, ?_⟩
  have h := (c10_bare_hex_target_is_mac
    { sessions := [{ mkSession 1001 "1.2.3.4" 0 with mac := "AABBCCDDEEFF" }], counter := 1001 }
    0 "AABBCCDDEEFF" "ping" 'p' ['i', 'n', 'g'] (by decide) (by decide) rfl (by decide)
    (by decide)).1
  rw [h]
  decide

end RemoteAdmin
